import Mathlib

/-!
Verification of the two scanner dialogs of quantix-inventory-ai
(`src/components/ExpiryDateScannerDialog.tsx` and
`src/components/BarcodeScannerDialog.tsx`).

The expiry-date extraction pipeline of `captureAndScan` is embedded as
executable functions over `List Char` (a JS string is a sequence of
characters; all text involved is ASCII).  The two regex literals

  pattern A:  word-boundary, 1-2 digits, separator, 1-2 digits, separator,
              4 digits, word-boundary         (the dd/mm/yyyy pattern)
  pattern B:  word-boundary, 4 digits, separator, 1-2 digits, separator,
              1-2 digits, word-boundary       (the yyyy-mm-dd pattern)

are embedded directly: each quantifier alternative of a pattern is one
fixed-width shape, tried in the backtracking order of a JS regex engine
(longer alternatives of an earlier group first), and the global `exec`
loop is a left-to-right scan over candidate start positions that skips
positions inside an already taken match (the `lastIndex` discipline).
-/

/-- JS regex word-character class used by the word-boundary assertions of both
date patterns: ASCII letters, ASCII digits and underscore. -/
def isWordChar (c : Char) : Bool := c.isAlpha || c.isDigit || c == '_'

/-- The separator character class of both date regexes: slash, dash or dot. -/
def isSep (c : Char) : Bool := c == '/' || c == '-' || c == '.'

/-- Trailing word-boundary test after a match: end of input or a non-word
character follows. -/
def boundaryAfter : List Char → Bool
  | [] => true
  | c :: _ => !(isWordChar c)

/-- Take exactly `n` digit characters from the front of the input, returning
the digits and the rest.  One fixed-width alternative of a digit group. -/
def takeD : Nat → List Char → Option (List Char × List Char)
  | 0, cs => some ([], cs)
  | _ + 1, [] => none
  | n + 1, c :: cs =>
      if c.isDigit then (takeD n cs).map (fun p => (c :: p.1, p.2)) else none

/-- Consume one separator character. -/
def takeSep : List Char → Option (List Char)
  | [] => none
  | c :: cs => if isSep c then some cs else none

/-- The three capture groups of one regex match (`match[1]`, `match[2]`,
`match[3]` in the source). -/
structure DateGroups where
  g1 : List Char
  g2 : List Char
  g3 : List Char
deriving DecidableEq, Repr

/-- One fixed-width shape of a date pattern: a group of `n1` digits, a
separator, a group of `n2` digits, a separator, a group of `n3` digits,
followed by a word boundary.  Succeeds only when matching starts at the very
head of the input. -/
def shape3 (n1 n2 n3 : Nat) (cs : List Char) : Option (DateGroups × List Char) :=
  match takeD n1 cs with
  | none => none
  | some (g1, r1) =>
    match takeSep r1 with
    | none => none
    | some r2 =>
      match takeD n2 r2 with
      | none => none
      | some (g2, r3) =>
        match takeSep r3 with
        | none => none
        | some r4 =>
          match takeD n3 r4 with
          | none => none
          | some (g3, r5) =>
            if boundaryAfter r5 then some (⟨g1, g2, g3⟩, r5) else none

/-- First defined value in a list of attempts (the alternation order of a
backtracking regex engine). -/
def firstSome : List (Option (DateGroups × List Char)) → Option (DateGroups × List Char)
  | [] => none
  | o :: os =>
      match o with
      | some v => some v
      | none => firstSome os

/-- A match of pattern A (dd/mm/yyyy) starting exactly at the head of the
input: the 1-2 digit quantifiers expand to four fixed shapes, tried in the
backtracking order (2,2), (2,1), (1,2), (1,1). -/
def matchACore (cs : List Char) : Option (DateGroups × List Char) :=
  firstSome [shape3 2 2 4 cs, shape3 2 1 4 cs, shape3 1 2 4 cs, shape3 1 1 4 cs]

/-- A match of pattern B (yyyy-mm-dd) starting exactly at the head of the
input, with the same backtracking order for its two 1-2 digit groups. -/
def matchBCore (cs : List Char) : Option (DateGroups × List Char) :=
  firstSome [shape3 4 2 2 cs, shape3 4 2 1 cs, shape3 4 1 2 cs, shape3 4 1 1 cs]

/-- The leading word-boundary test at index `i`: start of text or a
non-word character right before `i`. -/
def prevBoundary (text : List Char) (i : Nat) : Bool :=
  if i = 0 then true
  else
    match text[i - 1]? with
    | some p => !(isWordChar p)
    | none => true

/-- Attempt a match exactly at index `i` of the text: the leading word
boundary holds and the core pattern matches the suffix.  Returns the groups
and the index one past the match (the new `lastIndex`). -/
def attemptAt (core : List Char → Option (DateGroups × List Char))
    (text : List Char) (i : Nat) : Option (DateGroups × Nat) :=
  if prevBoundary text i then
    (core (text.drop i)).map (fun p => (p.1, text.length - p.2.length))
  else none

/-- The `while pattern.exec(text)` loop with the `g` flag: candidate start
positions are scanned left to right and a position is taken only when it is
not inside the previously taken match. -/
def collectFrom (core : List Char → Option (DateGroups × List Char))
    (text : List Char) : Nat → List Nat → List DateGroups
  | _, [] => []
  | last, i :: is =>
      match attemptAt core text i with
      | some (g, nxt) =>
          if last ≤ i then g :: collectFrom core text nxt is
          else collectFrom core text last is
      | none => collectFrom core text last is

/-- All matches of pattern A in the text, in scan order. -/
def matchesA (text : List Char) : List DateGroups :=
  collectFrom matchACore text 0 (List.range text.length)

/-- All matches of pattern B in the text, in scan order. -/
def matchesB (text : List Char) : List DateGroups :=
  collectFrom matchBCore text 0 (List.range text.length)

/-- JS `String.prototype.padStart(2, "0")`. -/
def pad2 (s : List Char) : List Char :=
  if 2 ≤ s.length then s else List.replicate (2 - s.length) '0' ++ s

/-- Numeric value of a digit string, the way a date parser reads a component. -/
def digitsVal (s : List Char) : Nat :=
  s.foldl (fun a c => a * 10 + (c.toNat - '0'.toNat)) 0

/-- All characters are ASCII digits. -/
def allDigits (s : List Char) : Bool := s.all Char.isDigit

/-- Is the first list a prefix of the second (character-wise)? -/
def isStartOf : List Char → List Char → Bool
  | [], _ => true
  | _ :: _, [] => false
  | a :: as, b :: bs => a == b && isStartOf as bs

/-- JS `String.prototype.includes`: does the second list contain the first as
a contiguous substring? -/
def containsSub (needle : List Char) : List Char → Bool
  | [] => isStartOf needle []
  | c :: cs => isStartOf needle (c :: cs) || containsSub needle cs

/-- The `source` text of the first regex literal (line 70), the dd/mm/yyyy
pattern. -/
def sourceA : List Char :=
  "\\b(\\d\x7b1,2\x7d)[\\/\\-\\.](\\d\x7b1,2\x7d)[\\/\\-\\.](\\d\x7b4\x7d)\\b".toList

/-- The `source` text of the second regex literal (line 71), the yyyy-mm-dd
pattern. -/
def sourceB : List Char :=
  "\\b(\\d\x7b4\x7d)[\\/\\-\\.](\\d\x7b1,2\x7d)[\\/\\-\\.](\\d\x7b1,2\x7d)\\b".toList

/-- The needle of the format-branch test on line 80: the four-digit capture
group as it appears in a regex source string. -/
def isoNeedle : List Char := "(\\d\x7b4\x7d)".toList

/-- The branch condition of the assembly step (line 80):
`pattern.source.includes` of the four-digit group text. -/
def usesIsoBranch (src : List Char) : Bool := containsSub isoNeedle src

/-- Assembly of one regex match into the `dateStr` handed to `new Date`
(lines 79-92).  When the branch test succeeds the match is assembled as
`match[1]-match[2]-match[3]` with the second and third group zero-padded;
otherwise as `match[3]-match[2]-match[1]` with the first and second group
zero-padded. -/
def assembleFor (src : List Char) (g : DateGroups) : List Char :=
  if usesIsoBranch src then
    g.g1 ++ '-' :: (pad2 g.g2 ++ '-' :: pad2 g.g3)
  else
    g.g3 ++ '-' :: (pad2 g.g2 ++ '-' :: pad2 g.g1)

/-- Split a character list at every dash. -/
def splitDash : List Char → List (List Char)
  | [] => [[]]
  | c :: cs =>
      if c == '-' then [] :: splitDash cs
      else
        match splitDash cs with
        | [] => [[c]]
        | p :: ps => (c :: p) :: ps

def isLeapYear (y : Nat) : Bool :=
  y % 4 == 0 && (y % 100 != 0 || y % 400 == 0)

/-- Real calendar length of a month.  Used only to state calendar validity;
the program's date check (JS date parsing) does not actually enforce it. -/
def daysInMonth (y m : Nat) : Nat :=
  if m == 2 then (if isLeapYear y then 29 else 28)
  else if m == 4 || m == 6 || m == 9 || m == 11 then 30
  else 31

/-- V8's two-digit-year adjustment, applied to a parsed year value: a value
below 50 lands in 20xx, one below 100 in 19xx, larger values are kept. -/
def adjustYear (y : Nat) : Nat :=
  if y < 100 then (if y < 50 then y + 2000 else y + 1900) else y

/-- Model of JS `new Date(dateStr)` followed by `getFullYear()` for the
dash-separated three-component digit strings this program assembles, with
the runtime timezone fixed at UTC.  Returns the full year of a valid date
and `none` for an Invalid Date.  A string whose components are 4, 2 and 2
digits long is parsed by the ECMAScript date-time string format: month 1-12,
day 1-31 (a day beyond the month's length overflows arithmetically into the
following month, which for a day of at most 31 never crosses a year
boundary), year as written.  Any other three-component digit string falls to
V8's legacy parser: a first component of at most 31 is read as
month(1-12)-day(1-31)-year, a larger first component as
year-month(1-12)-day(1-31); the day overflows as above and the year value
receives the two-digit adjustment. -/
def jsDateYear (s : List Char) : Option Nat :=
  match splitDash s with
  | [c1, c2, c3] =>
      if allDigits c1 && allDigits c2 && allDigits c3 then
        let n1 := digitsVal c1
        let n2 := digitsVal c2
        let n3 := digitsVal c3
        if c1.length == 4 && c2.length == 2 && c3.length == 2 then
          if 1 ≤ n2 ∧ n2 ≤ 12 ∧ 1 ≤ n3 ∧ n3 ≤ 31 then some n1 else none
        else
          if n1 ≤ 31 then
            if 1 ≤ n1 ∧ n1 ≤ 12 ∧ 1 ≤ n2 ∧ n2 ≤ 31 then some (adjustYear n3)
            else none
          else
            if 1 ≤ n2 ∧ n2 ≤ 12 ∧ 1 ≤ n3 ∧ n3 ≤ 31 then some (adjustYear n1)
            else none
      else none
  | _ => none

/-- The validity filter of lines 95-98: the assembled string parses to a
valid date whose full year is strictly between 2020 and 2050. -/
def keepDate (s : List Char) : Bool :=
  match jsDateYear s with
  | some y => decide (2020 < y) && decide (y < 2050)
  | none => false

/-- The `foundDates` array at the end of the `forEach` over both patterns
(lines 74-100): every pattern A match in scan order, then every pattern B
match in scan order, each assembled and kept only when it passes the
validity filter. -/
def foundDates (text : List Char) : List (List Char) :=
  (((matchesA text).map (assembleFor sourceA)) ++
    ((matchesB text).map (assembleFor sourceB))).filter keepDate

/-- The outcome classification of lines 102-123. -/
inductive ExtractionOutcome where
  | noneFound
  | singleFound (d : List Char)
  | multipleFound (ds : List (List Char))
deriving DecidableEq, Repr

def extractOutcome (text : List Char) : ExtractionOutcome :=
  match foundDates text with
  | [] => .noneFound
  | [d] => .singleFound d
  | ds => .multipleFound ds

/-- The value handed to `onDetected` when any date was kept: `foundDates[0]`
in both the single and the multiple branch (lines 109 and 117). -/
def deliveredDate (text : List Char) : Option (List Char) :=
  (foundDates text).head?

/-- The externally visible effects of one `captureAndScan` run
(`ExpiryDateScannerDialog.tsx` lines 51-134), in program order. -/
inductive ExpEvent where
  | scanningOn
  | detected (d : List Char)
  | dialogClosed
  | toastNoDate
  | toastSuccess
  | toastMultiple
  | toastError
  | scanningOff
deriving DecidableEq, Repr

/-- One run of `captureAndScan`.  `hasRefs`: the video and canvas refs are
non-null (line 52); `has2dCtx`: `canvas.getContext` returned a context (line
59) — when it does not, the function returns after `setIsScanning(true)` and
before the `try`, so the `finally` of line 131 never runs; `ocr`: the
settlement of the `Tesseract.recognize` promise; the last parameter records
whether the dialog is still open when that promise settles — the code never
consults it (there is no staleness or unmount guard after the `await`),
which is exactly what the unused binder makes visible. -/
def captureAndScan (hasRefs has2dCtx : Bool) (ocr : Except Unit (List Char))
    (_openAtSettle : Bool) : List ExpEvent :=
  if hasRefs = false then []
  else
    .scanningOn ::
      (if has2dCtx = false then []
       else
         (match ocr with
          | .error _ => [.toastError]
          | .ok text =>
            match foundDates text with
            | [] => [.toastNoDate]
            | [d] => [.detected d, .dialogClosed, .toastSuccess]
            | d :: _ :: _ => [.detected d, .dialogClosed, .toastMultiple]) ++
          [.scanningOff])

/-- The value of the `isScanning` state after a run, starting from `init`:
the last write among the emitted `setIsScanning` calls wins. -/
def isScanningAfter (events : List ExpEvent) (init : Bool) : Bool :=
  events.foldl
    (fun b e =>
      match e with
      | .scanningOn => true
      | .scanningOff => false
      | _ => b)
    init

/-!
The barcode detection loop (`BarcodeScannerDialog.tsx`).  React semantics
made explicit in the model: a closure created during a render reads the
state values of that render; `setScanning` / `setLastDetectionTime` write
the store that only later renders (hence only later-created closures) see.
`startScanning` is invoked either from the open-effect's timeout or from the
retry button, and in every render that can invoke it `scanning` is `false`
(it is set to `true` only inside `startScanning` itself, after the closure
was created, and it is reset to `false` by `stopScanning` and by the `catch`
of `startScanning`).  So the `scan` closure of lines 90-113 and the ZXing
decode callback of lines 121-138 capture `scanning = false` and the
`lastDetectionTime` of the creating render for the whole session.
-/

/-- The debounce test of both detection callbacks (lines 97 and 124):
`now - lastDetectionTime > 2000`, where `capturedLast` is the
`lastDetectionTime` value captured by the callback's closure.
`setLastDetectionTime(now)` on acceptance updates the store for later
renders but is never seen again by the already-created closure. -/
def debounceAccepts (capturedLast now : Int) : Bool :=
  decide (now - capturedLast > 2000)

/-- The ZXing continuous-decode callback over one session: `resultTimes` are
the clock values at which the callback fires with a decode result while the
controls are live; each invocation runs the same debounce test against the
same captured value. -/
def acceptedTimes (capturedLast : Int) (resultTimes : List Int) : List Int :=
  resultTimes.filter (fun t => debounceAccepts capturedLast t)

/-- Number of `onDetected` invocations of the session: every accepted result
schedules a delivery timeout (lines 127-131) and nothing cancels those
timeouts. -/
def onDetectedCount (capturedLast : Int) (resultTimes : List Int) : Nat :=
  (acceptedTimes capturedLast resultTimes).length

/-- The effects of the delivery timeouts, in firing order: each accepted
result yields `stopScanning(); onDetected(code); onClose();` (lines 100-104
and 127-131). -/
inductive BarcodeEvent where
  | stopped
  | detected
  | closed
deriving DecidableEq, Repr

def deliverySeq (capturedLast : Int) (resultTimes : List Int) : List BarcodeEvent :=
  (acceptedTimes capturedLast resultTimes).foldr
    (fun _ acc => .stopped :: .detected :: .closed :: acc) []

/-- The state snapshot captured by the `scan` closure of the native detector
loop (lines 90-113) when `startScanning` created it. -/
structure ScanClosure where
  scanning : Bool
  lastDetectionTime : Int
deriving DecidableEq, Repr

/-- What one video frame presents to `scan`. -/
inductive FrameResult where
  | errored
  | nothing
  | found (code : List Char)
deriving DecidableEq, Repr

/-- One invocation of `scan`: a detect error is swallowed by the
`try`/`catch` of lines 92-109; a first barcode passes the debounce test; in
every case execution reaches line 110 and reschedules on the next animation
frame exactly when the closure-captured `scanning` is true. -/
def scanOnce (cl : ScanClosure) (fr : FrameResult) (now : Int) :
    Option (List Char) × Bool :=
  (match fr with
   | .found code =>
       if debounceAccepts cl.lastDetectionTime now then some code else none
   | _ => none,
   cl.scanning)

/-- How many frames of the session the loop processes: the first frame is
scheduled by line 115, each further frame only by the reschedule of line
111. -/
def processedFrames (cl : ScanClosure) (frames : List (FrameResult × Int)) : Nat :=
  match frames with
  | [] => 0
  | f :: rest => 1 + (if (scanOnce cl f.1 f.2).2 then processedFrames cl rest else 0)

/-- A camera session: whether a stream handle is held and the stopped-flags
of that stream's tracks. -/
structure CamSession where
  held : Bool
  tracks : List Bool
deriving DecidableEq, Repr

/-- The shared teardown step of both dialogs: if a stream handle is held,
stop every track and clear the handle; otherwise do nothing
(`MediaStreamTrack.stop` on an already stopped track is a no-op). -/
def stopTracksIfHeld (s : CamSession) : CamSession :=
  if s.held then { held := false, tracks := s.tracks.map (fun _ => true) } else s

/-- The full mutable state touched by `stopScanning` of the barcode dialog
(lines 30-67). -/
structure BarcodeState where
  animation : Option Nat
  detector : Bool
  controls : Bool
  scanner : Bool
  cam : CamSession
  scanning : Bool
  error : Option (List Char)
  success : Bool
deriving DecidableEq, Repr

/-- `stopScanning` of the barcode dialog: cancel a pending animation frame,
drop the detector, stop and drop the ZXing controls (its `stop` is wrapped
in `try`/`catch`), drop the scanner, stop every track of a held stream and
clear it, and reset the three state flags. -/
def stopScanningB (s : BarcodeState) : BarcodeState :=
  { animation := none, detector := false, controls := false, scanner := false,
    cam := stopTracksIfHeld s.cam, scanning := false, error := none,
    success := false }

/-- `stopCamera` of the expiry dialog (lines 44-49): stop every track of a
held stream and clear it. -/
def stopCameraE (s : CamSession) : CamSession := stopTracksIfHeld s

/-! Structural facts about the matcher, needed for the universally
quantified claims. -/

theorem takeD_spec : ∀ {n : Nat} {cs g r : List Char},
    takeD n cs = some (g, r) → g.length = n ∧ allDigits g = true := by
  intro n
  induction n with
  | zero =>
    intro cs g r h
    simp [takeD] at h
    rw [h.1]
    simp [allDigits]
  | succ n ih =>
    intro cs g r h
    cases cs with
    | nil => simp [takeD] at h
    | cons c cs =>
      simp only [takeD] at h
      by_cases hc : c.isDigit = true
      · rw [if_pos hc] at h
        rcases Option.map_eq_some'.mp h with ⟨⟨g0, r0⟩, h1, h2⟩
        obtain ⟨hl, hd⟩ := ih h1
        cases h2
        refine ⟨by simp [hl], ?_⟩
        simp only [allDigits, List.all_cons] at hd ⊢
        simp [hc, hd]
      · rw [if_neg hc] at h
        cases h

theorem shape3_spec : ∀ {n1 n2 n3 : Nat} {cs : List Char} {g : DateGroups}
    {rem : List Char}, shape3 n1 n2 n3 cs = some (g, rem) →
    g.g1.length = n1 ∧ allDigits g.g1 = true ∧
    g.g2.length = n2 ∧ allDigits g.g2 = true ∧
    g.g3.length = n3 ∧ allDigits g.g3 = true := by
  intro n1 n2 n3 cs g rem h
  unfold shape3 at h
  split at h
  · cases h
  · rename_i g1 r1 h1
    split at h
    · cases h
    · rename_i r2 h2
      split at h
      · cases h
      · rename_i g2 r3 h3
        split at h
        · cases h
        · rename_i r4 h4
          split at h
          · cases h
          · rename_i g3 r5 h5
            split at h
            · simp only [Option.some.injEq, Prod.mk.injEq] at h
              obtain ⟨hg, hr⟩ := h
              subst hg
              obtain ⟨l1, d1⟩ := takeD_spec h1
              obtain ⟨l2, d2⟩ := takeD_spec h3
              obtain ⟨l3, d3⟩ := takeD_spec h5
              exact ⟨l1, d1, l2, d2, l3, d3⟩
            · cases h

theorem firstSome_eq_some : ∀ {os : List (Option (DateGroups × List Char))}
    {v : DateGroups × List Char}, firstSome os = some v → some v ∈ os := by
  intro os
  induction os with
  | nil => intro v h; simp [firstSome] at h
  | cons o os ih =>
    intro v h
    cases o with
    | some w =>
      simp only [firstSome] at h
      rw [← h]
      exact List.mem_cons_self _ _
    | none =>
      simp only [firstSome] at h
      exact List.mem_cons_of_mem _ (ih h)

/-- Well-formedness of a pattern A match: day and month groups have one or
two digit characters, the year group exactly four. -/
def wfA (g : DateGroups) : Prop :=
  (g.g1.length = 1 ∨ g.g1.length = 2) ∧ allDigits g.g1 = true ∧
  (g.g2.length = 1 ∨ g.g2.length = 2) ∧ allDigits g.g2 = true ∧
  g.g3.length = 4 ∧ allDigits g.g3 = true

theorem matchACore_wf {cs : List Char} {g : DateGroups} {rem : List Char}
    (h : matchACore cs = some (g, rem)) : wfA g := by
  have hm := firstSome_eq_some h
  simp only [matchACore] at h
  simp only [List.mem_cons, List.not_mem_nil, or_false] at hm
  rcases hm with h1 | h1 | h1 | h1 <;>
  · obtain ⟨l1, d1, l2, d2, l3, d3⟩ := shape3_spec h1.symm
    exact ⟨by omega, d1, by omega, d2, l3, d3⟩

theorem attemptAt_some {core : List Char → Option (DateGroups × List Char)}
    {text : List Char} {i nxt : Nat} {g : DateGroups}
    (h : attemptAt core text i = some (g, nxt)) :
    ∃ cs rem, core cs = some (g, rem) := by
  unfold attemptAt at h
  split at h
  · rcases Option.map_eq_some'.mp h with ⟨⟨g0, rem⟩, hc, he⟩
    have hg : g0 = g := congrArg Prod.fst he
    exact ⟨text.drop i, rem, by rw [hc, hg]⟩
  · cases h

theorem mem_collectFrom {core : List Char → Option (DateGroups × List Char)}
    {text : List Char} {g : DateGroups} :
    ∀ {last : Nat} {is : List Nat}, g ∈ collectFrom core text last is →
      ∃ i nxt, attemptAt core text i = some (g, nxt) := by
  intro last is
  induction is generalizing last with
  | nil => intro h; simp [collectFrom] at h
  | cons i is ih =>
    intro h
    simp only [collectFrom] at h
    split at h
    · rename_i g0 nxt hA
      split at h
      · rcases List.mem_cons.mp h with hg | hg
        · subst hg
          exact ⟨i, nxt, hA⟩
        · exact ih hg
      · exact ih h
    · exact ih h

theorem matchesA_wf {text : List Char} {g : DateGroups}
    (h : g ∈ matchesA text) : wfA g := by
  obtain ⟨i, nxt, hA⟩ :=
    mem_collectFrom (show g ∈ collectFrom matchACore text 0 (List.range text.length) from h)
  obtain ⟨cs, rem, hc⟩ := attemptAt_some hA
  exact matchACore_wf hc

/-! Facts about splitting and parsing the assembled date strings. -/

theorem allDigits_ne_dash {l : List Char} (h : allDigits l = true) :
    ∀ c ∈ l, (c == '-') = false := by
  intro c hc
  have hd : c.isDigit = true := by
    unfold allDigits at h
    exact List.all_eq_true.mp h c hc
  cases hbe : c == '-' with
  | false => rfl
  | true =>
    have hce : c = '-' := eq_of_beq hbe
    rw [hce] at hd
    exact absurd hd (by decide)

theorem splitDash_no_dash {l : List Char} (h : ∀ c ∈ l, (c == '-') = false) :
    splitDash l = [l] := by
  induction l with
  | nil => rfl
  | cons c cs ih =>
    have hc := h c (List.mem_cons_self c cs)
    have hcs : ∀ x ∈ cs, (x == '-') = false :=
      fun x hx => h x (List.mem_cons_of_mem c hx)
    simp [splitDash, hc, ih hcs]

theorem splitDash_append {l r : List Char} (h : ∀ c ∈ l, (c == '-') = false) :
    splitDash (l ++ '-' :: r) = l :: splitDash r := by
  induction l with
  | nil => simp [splitDash]
  | cons c cs ih =>
    have hc := h c (List.mem_cons_self c cs)
    have hcs : ∀ x ∈ cs, (x == '-') = false :=
      fun x hx => h x (List.mem_cons_of_mem c hx)
    simp [splitDash, hc, ih hcs]

theorem pad2_of_length_ge {s : List Char} (h : 2 ≤ s.length) : pad2 s = s := by
  simp [pad2, h]

theorem allDigits_pad2 {s : List Char} (h : allDigits s = true) :
    allDigits (pad2 s) = true := by
  unfold pad2
  split
  · exact h
  · unfold allDigits at h ⊢
    rw [List.all_append, Bool.and_eq_true]
    refine ⟨?_, h⟩
    rw [List.all_eq_true]
    intro c hc
    rw [List.eq_of_mem_replicate hc]
    rfl

/-- The date check applied to the assembly of a pattern A match: never the
ISO path (the leading group has at most two digits), so the legacy parsing
applies: a day group of at most 31 is read as the month of a
month-day-year date whose year is the adjusted four-digit group, a larger
day group as the year of a year-month-day date whose day slot receives the
four-digit group's value. -/
theorem jsDateYear_assembleA {g : DateGroups} (h : wfA g) :
    jsDateYear (assembleFor sourceA g) =
      if digitsVal g.g1 ≤ 31 then
        if 1 ≤ digitsVal g.g1 ∧ digitsVal g.g1 ≤ 12 ∧
            1 ≤ digitsVal (pad2 g.g2) ∧ digitsVal (pad2 g.g2) ≤ 31
        then some (adjustYear (digitsVal g.g3)) else none
      else
        if 1 ≤ digitsVal (pad2 g.g2) ∧ digitsVal (pad2 g.g2) ≤ 12 ∧
            1 ≤ digitsVal g.g3 ∧ digitsVal g.g3 ≤ 31
        then some (adjustYear (digitsVal g.g1)) else none := by
  obtain ⟨h1len, h1d, h2len, h2d, h3len, h3d⟩ := h
  have hbr : usesIsoBranch sourceA = true := by decide
  have hasm : assembleFor sourceA g =
      g.g1 ++ '-' :: (pad2 g.g2 ++ '-' :: pad2 g.g3) := by
    simp [assembleFor, hbr]
  have h2d' : allDigits (pad2 g.g2) = true := allDigits_pad2 h2d
  have h3d' : allDigits (pad2 g.g3) = true := allDigits_pad2 h3d
  have h3p : pad2 g.g3 = g.g3 := pad2_of_length_ge (by omega)
  have hs : splitDash (g.g1 ++ '-' :: (pad2 g.g2 ++ '-' :: pad2 g.g3)) =
      [g.g1, pad2 g.g2, pad2 g.g3] := by
    rw [splitDash_append (allDigits_ne_dash h1d),
        splitDash_append (allDigits_ne_dash h2d'),
        splitDash_no_dash (allDigits_ne_dash h3d')]
  rw [hasm]
  unfold jsDateYear
  rw [hs]
  simp only [h1d, h2d', h3d', Bool.and_self, if_true]
  have hlen4 : (g.g1.length == 4) = false := by
    rcases h1len with h1 | h1 <;> simp [h1]
  simp [hlen4, h3p]

theorem keepDate_assembleA_of_year {g : DateGroups} (h : wfA g)
    (hbig : 100 ≤ digitsVal g.g3)
    (hy : ¬ (2020 < digitsVal g.g3 ∧ digitsVal g.g3 < 2050)) :
    keepDate (assembleFor sourceA g) = false := by
  have hadj : adjustYear (digitsVal g.g3) = digitsVal g.g3 := by
    unfold adjustYear
    rw [if_neg (by omega)]
  unfold keepDate
  rw [jsDateYear_assembleA h]
  by_cases h31 : digitsVal g.g1 ≤ 31
  · rw [if_pos h31]
    by_cases hc : 1 ≤ digitsVal g.g1 ∧ digitsVal g.g1 ≤ 12 ∧
        1 ≤ digitsVal (pad2 g.g2) ∧ digitsVal (pad2 g.g2) ≤ 31
    · rw [if_pos hc, hadj]
      show (decide (2020 < digitsVal g.g3) && decide (digitsVal g.g3 < 2050)) = false
      by_cases h1 : 2020 < digitsVal g.g3
      · have h2 : ¬ digitsVal g.g3 < 2050 := fun h2 => hy ⟨h1, h2⟩
        simp [h2]
      · simp [h1]
    · rw [if_neg hc]
  · rw [if_neg h31, if_neg (fun hc => absurd hc.2.2.2 (by omega))]

theorem keepDate_assembleA_of_day {g : DateGroups} (h : wfA g)
    (hd : 12 < digitsVal g.g1) (hy : 31 < digitsVal g.g3) :
    keepDate (assembleFor sourceA g) = false := by
  unfold keepDate
  rw [jsDateYear_assembleA h]
  by_cases h31 : digitsVal g.g1 ≤ 31
  · rw [if_pos h31, if_neg (fun hc => absurd hc.2.1 (by omega))]
  · rw [if_neg h31, if_neg (fun hc => absurd hc.2.2.2 (by omega))]

/-- C1: on the spec's example text the match of the dd/mm/yyyy pattern is
taken with the year-first assembly branch (the branch test is true for both
patterns), producing the string 31-12-2025 with the day in the year slot;
date validation rejects it, so the outcome is NoneFound and nothing is
delivered — not SingleFound with the normalized date 2025-12-31 that the
claim states. -/
theorem dmy_example_yields_noneFound :
    matchesA ("best before 31-12-2025".toList) =
      [⟨"31".toList, "12".toList, "2025".toList⟩] ∧
    extractOutcome ("best before 31-12-2025".toList) = .noneFound ∧
    deliveredDate ("best before 31-12-2025".toList) = none ∧
    captureAndScan true true (.ok ("best before 31-12-2025".toList)) true =
      [.scanningOn, .toastNoDate, .scanningOff] := by
  decide

/-- C2: on the spec's example text the code does deliver the first candidate
in scan order, but that candidate is the raw string 01-02-2030 (the dead
dd/mm/yyyy assembly branch never runs), and the outcome carries two
candidates — not SingleFound with the normalized 2030-02-01 the claim
states. -/
theorem first_candidate_delivered_unnormalized :
    foundDates ("exp 01/02/2030 also 2031-03-04".toList) =
      ["01-02-2030".toList, "2031-03-04".toList] ∧
    deliveredDate ("exp 01/02/2030 also 2031-03-04".toList) =
      some ("01-02-2030".toList) ∧
    extractOutcome ("exp 01/02/2030 also 2031-03-04".toList) =
      .multipleFound ["01-02-2030".toList, "2031-03-04".toList] := by
  decide

/-- C3: two decode results 100ms apart in one session — each runs the
debounce test against the same closure-captured lastDetectionTime (0 on a
fresh session), so both are accepted and each schedules its own delivery:
onDetected fires twice in one open/close cycle, refuting at-most-once
(each invocation is still immediately followed by onClose). -/
theorem double_delivery_per_cycle :
    ((3100 : Int) - 3000 < 2000) ∧
    onDetectedCount 0 [3000, 3100] = 2 ∧
    deliverySeq 0 [3000, 3100] =
      [.stopped, .detected, .closed, .stopped, .detected, .closed] := by
  decide

/-- C4: a pair of detection results 100ms apart is both accepted: the test
reads the render-captured lastDetectionTime, which the setLastDetectionTime
of the first acceptance never updates for the in-flight closure, so the
debounce invariant fails. -/
theorem debounce_pair_both_accepted :
    ((3100 : Int) - 3000 < 2000) ∧
    acceptedTimes 0 [3000, 3100] = [3000, 3100] := by
  decide

/-- C5: the events of a `captureAndScan` run do not depend on whether the
dialog is still open when the recognition promise settles; with the dialog
already closed (last argument false) a resolved request still invokes
onDetected and onClose — the stale result is acted on, not discarded. -/
theorem stale_resolution_still_delivers :
    captureAndScan true true (.ok ("scan 2030-05-06".toList)) false =
      [.scanningOn, .detected ("2030-05-06".toList), .dialogClosed,
       .toastSuccess, .scanningOff] ∧
    (∀ stillOpen : Bool,
      captureAndScan true true (.ok ("scan 2030-05-06".toList)) stillOpen =
        captureAndScan true true (.ok ("scan 2030-05-06".toList)) false) :=
  ⟨by decide, fun _ => rfl⟩

/-- C7 counterexample: when `canvas.getContext` yields no context the run
exits after `setIsScanning(true)` and before the `try`, leaving the
isScanning indicator set — an exit path on which it is not cleared. -/
theorem ctx_missing_leaves_isScanning :
    captureAndScan true false (.ok []) true = [.scanningOn] ∧
    isScanningAfter (captureAndScan true false (.ok []) true) false = true := by
  decide

/-- C7 amended: on every exit path that reaches the recognition stage —
success, no date found, and recognition error alike — the `finally` clears
isScanning. -/
theorem isScanning_cleared_when_ocr_runs :
    ∀ (hasRefs : Bool) (ocr : Except Unit (List Char)) (stillOpen : Bool),
      isScanningAfter (captureAndScan hasRefs true ocr stillOpen) false = false := by
  intro hasRefs ocr stillOpen
  cases hasRefs
  · rfl
  · cases ocr with
    | error e => rfl
    | ok text =>
      rcases hf : foundDates text with _ | ⟨d, _ | ⟨e, rest⟩⟩ <;>
        simp [captureAndScan, hf, isScanningAfter]

/-- C8: at every session start the `scan` closure captures `scanning =
false`, so after the first frame — whose detect error is swallowed and
surfaces nothing — line 110's test is false and no further frame is ever
scheduled: the loop processes exactly one frame even though the session's
scanning state is still true. -/
theorem scan_loop_stops_after_one_frame :
    processedFrames ⟨false, 0⟩ [(.errored, 100000), (.nothing, 100016)] = 1 ∧
    (scanOnce ⟨false, 0⟩ .errored 100000).1 = none ∧
    (scanOnce ⟨false, 0⟩ .errored 100000).2 = false := by
  decide

/-- C10 counterexample: on the text exp 01/02/2030 a date is delivered
although the yyyy-mm-dd pattern has no match at all — the delivered string
01-02-2030 originates from the dd/mm/yyyy pattern (its day at most 12, so
the month-day-year fallback of date parsing accepts it with its true
four-digit year), refuting the claim that no day-month-year match is ever
delivered. -/
theorem delivered_date_from_dmy_pattern :
    deliveredDate ("exp 01/02/2030".toList) = some ("01-02-2030".toList) ∧
    matchesB ("exp 01/02/2030".toList) = [] ∧
    ("01-02-2030".toList) ∉
      (matchesB ("exp 01/02/2030".toList)).map (assembleFor sourceB) := by
  decide

/-- C6 counterexample: JS date leniency defeats the claim.  2030-02-29 fails
calendar validation (February 2030 has 28 days) yet is kept and delivered;
the dd/mm/yyyy match of exp 01/02/0030 has year group 0030 (value 30,
outside the open interval 2020-2050) yet is delivered (two-digit-year
adjustment reads it as 2030); and the dd/mm/yyyy match of exp 45/06/0007 has
year group 0007 (value 7) yet is delivered (year-first routing of the first
component 45, adjusted to 2045). -/
theorem lenient_date_check_keeps_invalid :
    foundDates ("exp 2030-02-29".toList) = ["2030-02-29".toList] ∧
    daysInMonth 2030 2 = 28 ∧
    deliveredDate ("exp 01/02/0030".toList) = some ("01-02-0030".toList) ∧
    deliveredDate ("exp 45/06/0007".toList) = some ("45-06-0007".toList) := by
  decide

/-- C6 amended: every date string the pipeline keeps parses, under JS date
parsing, to a date whose full year lies strictly between 2020 and 2050 (the
year check holds for the parsed year); and a dd/mm/yyyy match whose
four-digit year group has value at least 100 and outside that open interval
is never kept (when the day group is at most 31 the legacy parse reads the
year from that group; otherwise the year-first routing puts the group's
value, above 31, in the day slot and the parse fails).  But the check is
weaker than the claim: a string that fails real calendar validation can be
kept (day overflow), and a dd/mm/yyyy match whose year group value is below
100 can be delivered (two-digit-year adjustment) — see the counterexample. -/
theorem year_range_filter :
    (∀ text s, s ∈ foundDates text →
      ∃ y, jsDateYear s = some y ∧ 2020 < y ∧ y < 2050) ∧
    (∀ text g, g ∈ matchesA text → 100 ≤ digitsVal g.g3 →
      ¬ (2020 < digitsVal g.g3 ∧ digitsVal g.g3 < 2050) →
      assembleFor sourceA g ∉ foundDates text) := by
  constructor
  · intro text s hs
    have hk := (List.mem_filter.mp hs).2
    unfold keepDate at hk
    rcases hy : jsDateYear s with _ | y
    · rw [hy] at hk
      cases hk
    · rw [hy] at hk
      simp only [Bool.and_eq_true, decide_eq_true_eq] at hk
      exact ⟨y, rfl, hk.1, hk.2⟩
  · intro text g hg hbig hy hin
    have hk := (List.mem_filter.mp hin).2
    rw [keepDate_assembleA_of_year (matchesA_wf hg) hbig hy] at hk
    cases hk

/-- C6 witness: a kept yyyy-mm-dd date has a valid in-range year, and the
dd/mm/yyyy match of a text with year 2019 is excluded. -/
theorem year_range_filter_check :
    (∃ y, jsDateYear ("2030-05-06".toList) = some y ∧ 2020 < y ∧ y < 2050) ∧
    assembleFor sourceA ⟨"01".toList, "02".toList, "2019".toList⟩ ∉
      foundDates ("exp 01/02/2019".toList) :=
  ⟨year_range_filter.1 ("a 2030-05-06 b".toList) ("2030-05-06".toList) (by decide),
   year_range_filter.2 ("exp 01/02/2019".toList)
     ⟨"01".toList, "02".toList, "2019".toList⟩ (by decide) (by decide) (by decide)⟩

/-- C10 amended: the format-branch test is true for both patterns, so every
match is assembled first-group-first; a dd/mm/yyyy match is therefore
assembled with its day group in the leading slot, and whenever that day
exceeds 12 and its four-digit year group's value exceeds 31 the assembly
fails date parsing (a day of 13-31 is rejected as a month by the
month-day-year reading; a larger day routes year-first, which rejects the
year group's value as a day) and is never kept.  But, contrary to the claim,
day-month-year matches can be delivered: with day at most 12 the
month-day-year fallback accepts the string with its true four-digit year
(see the counterexample), and with day above 31 and a year group of value at
most 31 the year-first reading accepts it as an adjusted two-digit year
(45/06/0007 is delivered as June 7 2045). -/
theorem both_patterns_take_iso_branch :
    usesIsoBranch sourceA = true ∧ usesIsoBranch sourceB = true ∧
    (∀ text g, g ∈ matchesA text → 12 < digitsVal g.g1 → 31 < digitsVal g.g3 →
      assembleFor sourceA g ∉ foundDates text) := by
  refine ⟨by decide, by decide, ?_⟩
  intro text g hg hd hy hin
  have hk := (List.mem_filter.mp hin).2
  rw [keepDate_assembleA_of_day (matchesA_wf hg) hd hy] at hk
  cases hk

/-- C10 amended witness: the dd/mm/yyyy match 31-12-2025 (day above 12, year
group above 31) of the example text is never kept. -/
theorem both_patterns_take_iso_branch_check :
    usesIsoBranch sourceA = true ∧
    assembleFor sourceA ⟨"31".toList, "12".toList, "2025".toList⟩ ∉
      foundDates ("best before 31-12-2025".toList) :=
  ⟨both_patterns_take_iso_branch.1,
   both_patterns_take_iso_branch.2.2 ("best before 31-12-2025".toList)
     ⟨"31".toList, "12".toList, "2025".toList⟩ (by decide) (by decide) (by decide)⟩

theorem stopTracks_idem (s : CamSession) :
    stopTracksIfHeld (stopTracksIfHeld s) = stopTracksIfHeld s := by
  cases hb : s.held <;> simp [stopTracksIfHeld, hb]

theorem stopTracks_held (s : CamSession) : (stopTracksIfHeld s).held = false := by
  cases hb : s.held <;> simp [stopTracksIfHeld, hb]

theorem stopTracks_stops (s : CamSession) (h : s.held = true) :
    (stopTracksIfHeld s).tracks.all (fun t => t) = true := by
  simp [stopTracksIfHeld, h, List.all_map, List.all_eq_true]

/-- C9: teardown is idempotent in both dialogs: a second stop right after a
first changes nothing and raises nothing (both functions are total), after a
stop no stream handle is held, and when a handle was held every one of its
tracks has been stopped. -/
theorem stop_teardown_idempotent :
    ∀ (b : BarcodeState) (e : CamSession),
      stopScanningB (stopScanningB b) = stopScanningB b ∧
      (stopScanningB b).cam.held = false ∧
      (b.cam.held = true →
        (stopScanningB b).cam.tracks.all (fun t => t) = true) ∧
      stopCameraE (stopCameraE e) = stopCameraE e ∧
      (stopCameraE e).held = false ∧
      (e.held = true → (stopCameraE e).tracks.all (fun t => t) = true) := by
  intro b e
  refine ⟨?_, stopTracks_held b.cam, fun h => stopTracks_stops b.cam h,
    stopTracks_idem e, stopTracks_held e, fun h => stopTracks_stops e h⟩
  simp [stopScanningB, stopTracks_idem]

/-- C9 witness: teardown at a live session with one running track in each
dialog. -/
theorem stop_teardown_idempotent_check :
    (stopScanningB ⟨some 7, true, true, true, ⟨true, [false, false]⟩, true,
        some [], true⟩).cam.tracks.all (fun t => t) = true ∧
    (stopCameraE ⟨true, [false]⟩).tracks.all (fun t => t) = true :=
  ⟨(stop_teardown_idempotent ⟨some 7, true, true, true, ⟨true, [false, false]⟩,
      true, some [], true⟩ ⟨true, [false]⟩).2.2.1 rfl,
   (stop_teardown_idempotent ⟨some 7, true, true, true, ⟨true, [false, false]⟩,
      true, some [], true⟩ ⟨true, [false]⟩).2.2.2.2.2 rfl⟩
